import Mathlib

/-!
Verification of the pest-detector application core (`app.py`): the static
remedy catalog, category classifier, active-ingredient extractor,
recommendation selector, the analysis client's JSON-extraction step, the
summary synthesizer, and the image-normalization fallback.  Each Python
function is shallowly embedded as an executable Lean definition; machine
strings become `String` (lists of characters), Python lists become `List`,
fallible steps return sum types.
-/

set_option maxRecDepth 4096

/-! ### String primitives

Python's `needle in haystack` is contiguous-substring containment and
`str.lower` is per-character lowering (all vocabulary used by the app is
ASCII, where Lean's `Char.toLower` agrees with Python). -/

/-- `matchesAt needle hay` is true when `hay` starts with `needle`
(models one alignment of Python's substring scan). -/
def matchesAt : List Char → List Char → Bool
  | [], _ => true
  | _ :: _, [] => false
  | a :: as, b :: bs => a == b && matchesAt as bs

/-- `hasSub needle hay` is true when `needle` occurs contiguously in `hay`
(models Python's `needle in hay` on strings). -/
def hasSub (needle : List Char) : List Char → Bool
  | [] => matchesAt needle []
  | c :: rest => matchesAt needle (c :: rest) || hasSub needle rest

/-- Python `needle in hay` for strings. -/
def strContains (hay needle : String) : Bool :=
  hasSub needle.data hay.data

/-- Python `str.lower()` (per-character; the app's vocabularies are ASCII). -/
def lowerStr (s : String) : String :=
  String.mk (s.data.map Char.toLower)

/-! ### Catalog Store (`CATALOG`, app.py lines 159-197)

One record per curated remedy; the dict of category to entry list becomes an
association list preserving the source's insertion order
bacterial, fungal, insect. -/

structure CatalogEntry where
  active : String
  title : String
  link : String
  snippet : String
deriving DecidableEq

def copperEntry : CatalogEntry :=
  ⟨"copper", "Copper Fungicide (Bonide / Southern Ag) — search",
   "https://www.amazon.com/s?k=Copper+Fungicide+Bonide+Southern+Ag",
   "Copper (fixed copper, copper soap) for bacterial leaf spots and cankers."⟩

def chlorothalonilEntry : CatalogEntry :=
  ⟨"chlorothalonil", "Daconil (chlorothalonil) — search",
   "https://www.amazon.com/s?k=Daconil+chlorothalonil+fungicide",
   "Broad-spectrum protectant for many leaf blights and fruit rots."⟩

def mancozebEntry : CatalogEntry :=
  ⟨"mancozeb", "Mancozeb (with zinc) — search",
   "https://www.amazon.com/s?k=mancozeb+fungicide+zinc",
   "Protectant fungicide—often rotated with other modes of action."⟩

def sulfurEntry : CatalogEntry :=
  ⟨"sulfur", "Sulfur (wettable / dust) — search",
   "https://www.amazon.com/s?k=sulfur+fungicide+garden",
   "(OMRI/Organic) Effective for powdery mildew; avoid near oils/heat per label."⟩

def potassiumBicarbonateEntry : CatalogEntry :=
  ⟨"potassium bicarbonate", "Potassium bicarbonate (e.g., GreenCure) — search",
   "https://www.amazon.com/s?k=potassium+bicarbonate+fungicide",
   "(OMRI/Organic) Contact fungicide for powdery mildew; rotate actives."⟩

def spinosadEntry : CatalogEntry :=
  ⟨"spinosad", "Monterey Garden Insect Spray (Spinosad) — search",
   "https://www.amazon.com/s?k=Monterey+Garden+Insect+Spray+Spinosad",
   "(OMRI/Organic) Thrips, leafminers, caterpillars; avoid spraying during bloom."⟩

def btEntry : CatalogEntry :=
  ⟨"bt", "Bt (Bacillus thuringiensis kurstaki) — search",
   "https://www.amazon.com/s?k=Bt+kurstaki+garden",
   "(OMRI/Organic) Caterpillar-specific bioinsecticide."⟩

def insecticidalSoapEntry : CatalogEntry :=
  ⟨"insecticidal soap", "Insecticidal soap (potassium salts) — search",
   "https://www.amazon.com/s?k=insecticidal+soap+Safer+Brand",
   "(OMRI/Organic) Soft-bodied pests like aphids/whiteflies; good coverage needed."⟩

def horticulturalOilEntry : CatalogEntry :=
  ⟨"horticultural oil", "Horticultural oil (All Seasons) — search",
   "https://www.amazon.com/s?k=horticultural+oil+all+seasons+spray",
   "(OMRI/Organic) Smothers eggs/soft-bodied insects & some mites."⟩

def pyrethrinEntry : CatalogEntry :=
  ⟨"pyrethrin", "Pyrethrin concentrate — search",
   "https://www.amazon.com/s?k=pyrethrin+concentrate+garden",
   "Quick knockdown; rotate to reduce resistance."⟩

def azadirachtinEntry : CatalogEntry :=
  ⟨"azadirachtin", "Azadirachtin / Neem (cold-pressed) — search",
   "https://www.amazon.com/s?k=azadirachtin+neem+oil+concentrate",
   "(OMRI/Organic) Growth regulator/repellent; check PHI/REI."⟩

def bacterialList : List CatalogEntry := [copperEntry]

def fungalList : List CatalogEntry :=
  [chlorothalonilEntry, mancozebEntry, sulfurEntry, potassiumBicarbonateEntry]

def insectList : List CatalogEntry :=
  [spinosadEntry, btEntry, insecticidalSoapEntry, horticulturalOilEntry,
   pyrethrinEntry, azadirachtinEntry]

def CATALOG : List (String × List CatalogEntry) :=
  [("bacterial", bacterialList), ("fungal", fungalList), ("insect", insectList)]

/-- Python `CATALOG.get(category, [])`. -/
def CATALOG_get (category : String) : List CatalogEntry :=
  match CATALOG.lookup category with
  | some l => l
  | none => []

/-- The source builds `ACTIVE_KEYWORDS` as a Python set comprehension over the
catalog groups in dict order.  All eleven actives are pairwise distinct, so the
set's elements are exactly this list; the model fixes the set's (otherwise
implementation-defined, hash-dependent) iteration order to insertion order.
Every theorem below about `curated_products` is insensitive to this order (its
lemmas quantify over an arbitrary actives list). -/
def ACTIVE_KEYWORDS : List String :=
  ((CATALOG.flatMap (fun p => p.2)).map (fun c => c.active)).foldl
    (fun acc a => if acc.contains a then acc else acc ++ [a]) []

/-! ### Active-Ingredient Extractor (`extract_actives`, app.py lines 200-206) -/

/-- Scans the lower-cased text for each known active-ingredient substring,
collecting first-seen matches (`found`/`seen` of the source merge into one
list, since `seen` always equals the set of elements of `found`). -/
def extract_actives (text : String) : List String :=
  let text_l := lowerStr text
  ACTIVE_KEYWORDS.foldl
    (fun found active =>
      if strContains text_l active && !(found.contains active) then
        found ++ [active]
      else found)
    []

/-! ### Category Classifier (`detect_category`, app.py lines 208-213) -/

def bacterialKws : List String := ["bacteria", "bacterial", "canker", "ooze"]

def fungalKws : List String := ["rust", "blight", "mildew", "anthracnose", "rot", "fung"]

def insectKws : List String :=
  ["aphid", "whitefly", "thrip", "mite", "borer", "worm", "caterpillar",
   "beetle", "leafminer", "insect"]

/-- The classifier's scan text: both inputs lower-cased and joined by a
single space (`dl` in the source). -/
def joinedLower (disease_text treatment_text : String) : String :=
  lowerStr disease_text ++ " " ++ lowerStr treatment_text

/-- Python `any(w in dl for w in kws)`. -/
def anyKw (kws : List String) (dl : String) : Bool :=
  kws.any (fun w => strContains dl w)

def detect_category (disease_text treatment_text : String) : String :=
  if anyKw bacterialKws (joinedLower disease_text treatment_text) then "bacterial"
  else if anyKw fungalKws (joinedLower disease_text treatment_text) then "fungal"
  else if anyKw insectKws (joinedLower disease_text treatment_text) then "insect"
  else "insect"

/-! ### Recommendation Selector (`curated_products`, app.py lines 215-231) -/

/-- One step of the nested loop `for a in actives: for item in catalog_list:
if item["active"] == a: chosen.append(item)`. -/
def chosenStep (catalog_list : List CatalogEntry) (acc : List CatalogEntry)
    (a : String) : List CatalogEntry :=
  acc ++ catalog_list.filter (fun item => item.active == a)

def chosenFor (catalog_list : List CatalogEntry) (actives : List String) :
    List CatalogEntry :=
  actives.foldl (chosenStep catalog_list) []

/-- The backfill loop: append catalog entries not already chosen, in catalog
order, breaking as soon as two entries are reached. -/
def backfill : List CatalogEntry → List CatalogEntry → List CatalogEntry
  | [], chosen => chosen
  | item :: rest, chosen =>
    if item ∈ chosen then backfill rest chosen
    else if (chosen ++ [item]).length ≥ 2 then chosen ++ [item]
    else backfill rest (chosen ++ [item])

/-- Body of `curated_products` after the category has been resolved and the
actives extracted; kept separate so its properties can be proved for an
arbitrary actives list (the source's `ACTIVE_KEYWORDS` set has
implementation-defined iteration order). -/
def pickProducts (catalog_list : List CatalogEntry) (actives : List String) :
    List CatalogEntry :=
  if catalog_list = [] then []
  else if actives = [] then catalog_list.take 2
  else
    (if (chosenFor catalog_list actives).length < 2 then
      backfill catalog_list (chosenFor catalog_list actives)
    else chosenFor catalog_list actives).take 4

def curated_products (recommendation disease_name : String) : List CatalogEntry :=
  pickProducts (CATALOG_get (detect_category disease_name recommendation))
    (extract_actives recommendation)

/-! ### Analysis Client: JSON extraction (`analyze_plant`, app.py lines 250-257)

The Gemini call itself is an external collaborator; the verified part is the
parsing of its free-form text response: locate the first brace and the last
closing brace, slice between them, and hand the slice to a JSON parser.  The
parser below models Python's `json.loads` (strict JSON plus the `NaN` /
`Infinity` extensions `json.loads` accepts); numbers are kept as their
lexemes, objects as association lists in source order. -/

inductive Json where
  | null : Json
  | bool (b : Bool) : Json
  | num (lexeme : String) : Json
  | str (s : String) : Json
  | arr (xs : List Json) : Json
  | obj (fields : List (String × Json)) : Json

def jsonOpen : Char := Char.ofNat 123

def jsonClose : Char := Char.ofNat 125

def isJsonWs (c : Char) : Bool :=
  c == ' ' || c == '\t' || c == '\n' || c == '\r'

def skipWs : List Char → List Char
  | [] => []
  | c :: rest => if isJsonWs c then skipWs rest else c :: rest

def hexVal (c : Char) : Option Nat :=
  if '0' ≤ c && c ≤ '9' then some (c.toNat - 48)
  else if 'a' ≤ c && c ≤ 'f' then some (c.toNat - 87)
  else if 'A' ≤ c && c ≤ 'F' then some (c.toNat - 55)
  else none

def escChar : Char → Option Char
  | '"' => some '"'
  | '\\' => some '\\'
  | '/' => some '/'
  | 'b' => some (Char.ofNat 8)
  | 'f' => some (Char.ofNat 12)
  | 'n' => some '\n'
  | 'r' => some '\r'
  | 't' => some '\t'
  | _ => none

/-- Body of a JSON string after its opening quote: returns the decoded
characters and the remainder after the closing quote.  `fuel` bounds the
recursion; each step consumes at least one character. -/
def parseStrBody (fuel : Nat) (cs : List Char) :
    Except String (List Char × List Char) :=
  match fuel with
  | 0 => Except.error "Input too deep"
  | fuel + 1 =>
    match cs with
    | [] => Except.error "Unterminated string"
    | c :: rest =>
      if c == '"' then Except.ok ([], rest)
      else if c == '\\' then
        match rest with
        | [] => Except.error "Unterminated string"
        | e :: rest2 =>
          if e == 'u' then
            match rest2 with
            | h1 :: h2 :: h3 :: h4 :: rest3 =>
              match hexVal h1, hexVal h2, hexVal h3, hexVal h4 with
              | some a, some b, some c2, some d =>
                match parseStrBody fuel rest3 with
                | Except.ok (body, rem) =>
                  Except.ok (Char.ofNat (((a * 16 + b) * 16 + c2) * 16 + d) :: body, rem)
                | Except.error m => Except.error m
              | _, _, _, _ => Except.error "Invalid unicode escape"
            | _ => Except.error "Invalid unicode escape"
          else
            match escChar e with
            | some d =>
              match parseStrBody fuel rest2 with
              | Except.ok (body, rem) => Except.ok (d :: body, rem)
              | Except.error m => Except.error m
            | none => Except.error "Invalid escape"
      else if c.toNat < 32 then Except.error "Invalid control character"
      else
        match parseStrBody fuel rest with
        | Except.ok (body, rem) => Except.ok (c :: body, rem)
        | Except.error m => Except.error m

/-- If `cs` starts with `pre`, return the remainder. -/
def dropPre : List Char → List Char → Option (List Char)
  | [], cs => some cs
  | _ :: _, [] => none
  | p :: ps, c :: cs => if p == c then dropPre ps cs else none

def digitSpan (cs : List Char) : List Char × List Char :=
  cs.span Char.isDigit

/-- Integer part of a JSON number: a single `0`, or a nonzero digit followed
by digits. -/
def parseIntDigits : List Char → Except String (List Char × List Char)
  | [] => Except.error "Expecting value"
  | c :: rest =>
    if c == '0' then Except.ok ([c], rest)
    else if c.isDigit then
      match digitSpan rest with
      | (ds, r) => Except.ok (c :: ds, r)
    else Except.error "Expecting value"

def parseFrac (cs : List Char) : Except String (List Char × List Char) :=
  match cs with
  | '.' :: rest =>
    (match digitSpan rest with
     | ([], _) => Except.error "Expecting digits after decimal point"
     | (ds, r) => Except.ok ('.' :: ds, r))
  | _ => Except.ok ([], cs)

def parseExp (cs : List Char) : Except String (List Char × List Char) :=
  match cs with
  | [] => Except.ok ([], cs)
  | c :: rest =>
    if c == 'e' || c == 'E' then
      match rest with
      | [] => Except.error "Expecting digits in exponent"
      | s :: rest2 =>
        if s == '+' || s == '-' then
          match digitSpan rest2 with
          | ([], _) => Except.error "Expecting digits in exponent"
          | (ds, r) => Except.ok (c :: s :: ds, r)
        else
          match digitSpan rest with
          | ([], _) => Except.error "Expecting digits in exponent"
          | (ds, r) => Except.ok (c :: ds, r)
    else Except.ok ([], cs)

def parseNumberFrom (neg : Bool) (cs : List Char) :
    Except String (Json × List Char) :=
  match parseIntDigits cs with
  | Except.error m => Except.error m
  | Except.ok (ip, r1) =>
    match parseFrac r1 with
    | Except.error m => Except.error m
    | Except.ok (fp, r2) =>
      match parseExp r2 with
      | Except.error m => Except.error m
      | Except.ok (ep, r3) =>
        Except.ok
          (Json.num (String.mk ((if neg then ['-'] else []) ++ ip ++ fp ++ ep)), r3)

/-- Literal keywords accepted by `json.loads`. -/
def parseKeyword (cs : List Char) : Option (Json × List Char) :=
  match dropPre ("true".data) cs with
  | some r => some (Json.bool true, r)
  | none =>
    match dropPre ("false".data) cs with
    | some r => some (Json.bool false, r)
    | none =>
      match dropPre ("null".data) cs with
      | some r => some (Json.null, r)
      | none =>
        match dropPre ("NaN".data) cs with
        | some r => some (Json.num "NaN", r)
        | none =>
          match dropPre ("Infinity".data) cs with
          | some r => some (Json.num "Infinity", r)
          | none => none

mutual

def parseValue (fuel : Nat) (cs : List Char) : Except String (Json × List Char) :=
  match fuel with
  | 0 => Except.error "Input too deep"
  | fuel + 1 =>
    match cs with
    | [] => Except.error "Expecting value"
    | c :: rest =>
      if c == '"' then
        match parseStrBody (rest.length + 1) rest with
        | Except.ok (body, rem) => Except.ok (Json.str (String.mk body), rem)
        | Except.error m => Except.error m
      else if c == jsonOpen then
        match skipWs rest with
        | [] => Except.error "Unterminated object"
        | c2 :: r2 =>
          if c2 == jsonClose then Except.ok (Json.obj [], r2)
          else parseObjItems fuel (c2 :: r2) []
      else if c == '[' then
        match skipWs rest with
        | [] => Except.error "Unterminated array"
        | c2 :: r2 =>
          if c2 == ']' then Except.ok (Json.arr [], r2)
          else parseArrItems fuel (c2 :: r2) []
      else if c == '-' then
        match dropPre ("Infinity".data) rest with
        | some r => Except.ok (Json.num "-Infinity", r)
        | none => parseNumberFrom true rest
      else if c.isDigit then parseNumberFrom false (c :: rest)
      else
        match parseKeyword (c :: rest) with
        | some (v, r) => Except.ok (v, r)
        | none => Except.error "Expecting value"

def parseObjItems (fuel : Nat) (cs : List Char) (acc : List (String × Json)) :
    Except String (Json × List Char) :=
  match fuel with
  | 0 => Except.error "Input too deep"
  | fuel + 1 =>
    match cs with
    | [] => Except.error "Unterminated object"
    | c :: rest =>
      if c == '"' then
        match parseStrBody (rest.length + 1) rest with
        | Except.error m => Except.error m
        | Except.ok (key, rem) =>
          match skipWs rem with
          | ':' :: rem2 =>
            match parseValue fuel (skipWs rem2) with
            | Except.error m => Except.error m
            | Except.ok (v, rem3) =>
              match skipWs rem3 with
              | [] => Except.error "Expecting delimiter"
              | c2 :: rem4 =>
                if c2 == ',' then
                  parseObjItems fuel (skipWs rem4) (acc ++ [(String.mk key, v)])
                else if c2 == jsonClose then
                  Except.ok (Json.obj (acc ++ [(String.mk key, v)]), rem4)
                else Except.error "Expecting delimiter"
          | _ => Except.error "Expecting colon"
      else Except.error "Expecting property name"

def parseArrItems (fuel : Nat) (cs : List Char) (acc : List Json) :
    Except String (Json × List Char) :=
  match fuel with
  | 0 => Except.error "Input too deep"
  | fuel + 1 =>
    match parseValue fuel cs with
    | Except.error m => Except.error m
    | Except.ok (v, rem) =>
      match skipWs rem with
      | [] => Except.error "Expecting delimiter"
      | c2 :: rem2 =>
        if c2 == ',' then parseArrItems fuel (skipWs rem2) (acc ++ [v])
        else if c2 == ']' then Except.ok (Json.arr (acc ++ [v]), rem2)
        else Except.error "Expecting delimiter"

end

/-- Python `json.loads`: one JSON value surrounded only by whitespace. -/
def parseJson (s : String) : Except String Json :=
  match parseValue (s.data.length + 1) (skipWs s.data) with
  | Except.ok (v, rest) =>
    if skipWs rest = [] then Except.ok v else Except.error "Extra data"
  | Except.error m => Except.error m

/-- Python `text.find(c)`: index of the first occurrence, if any. -/
def findCharIdx (c : Char) : List Char → Option Nat
  | [] => none
  | x :: rest =>
    if x == c then some 0 else (findCharIdx c rest).map (· + 1)

/-- Python `text.rfind(c)`: index of the last occurrence, if any. -/
def rfindCharIdx (c : Char) : List Char → Option Nat
  | [] => none
  | x :: rest =>
    match rfindCharIdx c rest with
    | some i => some (i + 1)
    | none => if x == c then some 0 else none

/-- Python `text[s : e1 + 1]` (for `0 ≤ s`): the slice from the first brace
to the last closing brace, inclusive; empty when `e1 + 1 ≤ s`. -/
def braceSlice (text : String) (s e1 : Nat) : String :=
  String.mk ((text.data.drop s).take (e1 + 1 - s))

/-- Result of the analysis client's parsing step.  The source returns a dict
carrying an `"error"` key plus the raw text on failure; the two failure dicts
become the two error constructors, each holding the message and the raw
payload. -/
inductive ParseOutcome where
  | ok (value : Json) : ParseOutcome
  | errNoJson (message raw : String) : ParseOutcome
  | errInvalidJson (message raw : String) : ParseOutcome

/-- The response-parsing step of `analyze_plant`: `s, e = text.find("{"),
text.rfind("}") + 1`; error when `s < 0 or e <= 0` (i.e. either brace is
absent), otherwise `json.loads(text[s:e])` with its own error fallback.
Being a total function, it models "never raises an unhandled exception". -/
def parse_model_response (text : String) : ParseOutcome :=
  match findCharIdx jsonOpen text.data, rfindCharIdx jsonClose text.data with
  | some s, some e1 =>
    (match parseJson (braceSlice text s e1) with
     | Except.ok v => ParseOutcome.ok v
     | Except.error msg =>
       ParseOutcome.errInvalidJson ("Invalid JSON: " ++ msg) (braceSlice text s e1))
  | _, _ => ParseOutcome.errNoJson "Failed to parse the model response" text

/-! ### Summary Synthesizer (`synthesize_summary`, app.py lines 260-272)

The speech call (`gTTS`) is an external collaborator; the verified part is
the construction of the spoken summary text.  The parsed analysis dict is
modelled by the fields the synthesizer consults: `is_healthy` truthiness
collapses to a `Bool`, `results` to a list, and each finding's consulted
string fields to `Option String` (absent key = `none`, read through
`dict.get(key, default)`). -/

structure Finding where
  name : Option String
  symptoms : Option String
  treatment : Option String
  prevention : Option String
deriving DecidableEq

structure Analysis where
  is_healthy : Bool
  results : List Finding
deriving DecidableEq

/-- One spoken sentence per finding:
`f"{r.get('name','Unknown')}. Symptoms: {r.get('symptoms','')}. Treatment:
{r.get('treatment','')}. Prevention: {r.get('prevention','')}."` -/
def findingSentence (r : Finding) : String :=
  (r.name.getD "Unknown") ++ ". Symptoms: " ++ (r.symptoms.getD "") ++
    ". Treatment: " ++ (r.treatment.getD "") ++ ". Prevention: " ++
    (r.prevention.getD "") ++ "."

/-- The sentence shape claim C7 asserts (every missing field, the name
included, rendered as the empty string); compared against the source's
`findingSentence`, whose missing name renders as `"Unknown"`. -/
def claimFindingSentence (r : Finding) : String :=
  (r.name.getD "") ++ ". Symptoms: " ++ (r.symptoms.getD "") ++
    ". Treatment: " ++ (r.treatment.getD "") ++ ". Prevention: " ++
    (r.prevention.getD "") ++ "."

/-- The summary text built by `synthesize_summary` (its trailing text-to-speech
call is external and may only replace the returned audio with `b""`). -/
def synthesize_summary (analysis : Analysis) (plant_name : String) : String :=
  if analysis.is_healthy then
    "Your " ++ plant_name ++ " plant appears healthy. Keep doing what you are doing."
  else if analysis.results ≠ [] then
    "Detected issues: " ++ String.intercalate " " (analysis.results.map findingSentence)
  else
    "Analysis inconclusive."

/-! ### Image normalization (`to_jpeg_bytes`, app.py lines 128-135)

The PIL decode / RGB convert / JPEG re-encode pipeline is an external
collaborator (spec section 1); it is modelled as an oracle that either
produces the re-encoded bytes or fails (PIL raising any exception).  The
source's `try/except` keeps the original bytes on failure. -/

def to_jpeg_bytes {β : Type} (reencode : β → Option β) (raw_bytes : β) : β :=
  match reencode raw_bytes with
  | some jpeg => jpeg
  | none => raw_bytes

/-! ### Helper lemmas -/

theorem strData_append (s t : String) : (s ++ t).data = s.data ++ t.data := rfl

theorem matchesAt_iff (n : List Char) :
    ∀ h : List Char, matchesAt n h = true ↔ ∃ q, h = n ++ q := by
  induction n with
  | nil => intro h; simp [matchesAt]
  | cons a as ih =>
    intro h
    cases h with
    | nil => simp [matchesAt]
    | cons b bs =>
      simp only [matchesAt, Bool.and_eq_true, beq_iff_eq, ih bs, List.cons_append,
        List.cons.injEq]
      constructor
      · rintro ⟨rfl, q, rfl⟩; exact ⟨q, rfl, rfl⟩
      · rintro ⟨q, rfl, rfl⟩; exact ⟨rfl, q, rfl⟩

theorem hasSub_iff (n : List Char) :
    ∀ h : List Char, hasSub n h = true ↔ ∃ p q, h = p ++ n ++ q := by
  intro h
  induction h with
  | nil =>
    simp only [hasSub, matchesAt_iff]
    constructor
    · rintro ⟨q, hq⟩
      exact ⟨[], q, by simpa using hq⟩
    · rintro ⟨p, q, hpq⟩
      rcases List.append_eq_nil.1 hpq.symm with ⟨h1, h2⟩
      rcases List.append_eq_nil.1 h1 with ⟨rfl, rfl⟩
      exact ⟨[], by simp⟩
  | cons c rest ih =>
    simp only [hasSub, Bool.or_eq_true, matchesAt_iff, ih]
    constructor
    · rintro (⟨q, hq⟩ | ⟨p, q, hpq⟩)
      · exact ⟨[], q, by simpa using hq⟩
      · exact ⟨c :: p, q, by simp [hpq]⟩
    · rintro ⟨p, q, hpq⟩
      cases p with
      | nil => exact Or.inl ⟨q, by simpa using hpq⟩
      | cons d p' =>
        simp only [List.cons_append, List.cons.injEq] at hpq
        exact Or.inr ⟨p', q, hpq.2⟩

theorem hasSub_trans (n m h : List Char) (h1 : hasSub n m = true)
    (h2 : hasSub m h = true) : hasSub n h = true := by
  rw [hasSub_iff] at h1 h2 ⊢
  obtain ⟨p, q, rfl⟩ := h1
  obtain ⟨p2, q2, rfl⟩ := h2
  exact ⟨p2 ++ p, q ++ q2, by simp⟩

theorem hasSub_append_right (n h1 h2 : List Char) (h : hasSub n h1 = true) :
    hasSub n (h1 ++ h2) = true := by
  rw [hasSub_iff] at h ⊢
  obtain ⟨p, q, rfl⟩ := h
  exact ⟨p, q ++ h2, by simp⟩

theorem detect_category_mem (d t : String) :
    detect_category d t = "bacterial" ∨ detect_category d t = "fungal" ∨
      detect_category d t = "insect" := by
  unfold detect_category
  repeat' split
  · exact Or.inl rfl
  · exact Or.inr (Or.inl rfl)
  · exact Or.inr (Or.inr rfl)
  · exact Or.inr (Or.inr rfl)

/-- The first two entries of each per-category list are distinct (vacuous for
lists shorter than two); exactly what the backfill lower bound needs. -/
def firstTwoDistinct : List CatalogEntry → Prop
  | a :: b :: _ => a ≠ b
  | _ => True

theorem backfill_mem (x : CatalogEntry) :
    ∀ (cat chosen : List CatalogEntry), x ∈ backfill cat chosen →
      x ∈ chosen ∨ x ∈ cat := by
  intro cat
  induction cat with
  | nil => intro chosen hx; exact Or.inl (by simpa [backfill] using hx)
  | cons item rest ih =>
    intro chosen hx
    by_cases h1 : item ∈ chosen
    · rw [backfill, if_pos h1] at hx
      rcases ih chosen hx with h | h
      · exact Or.inl h
      · exact Or.inr (List.mem_cons_of_mem _ h)
    · rw [backfill, if_neg h1] at hx
      by_cases h2 : (chosen ++ [item]).length ≥ 2
      · rw [if_pos h2] at hx
        rcases List.mem_append.1 hx with h | h
        · exact Or.inl h
        · simp at h
          exact Or.inr (by simp [h])
      · rw [if_neg h2] at hx
        rcases ih (chosen ++ [item]) hx with h | h
        · rcases List.mem_append.1 h with h' | h'
          · exact Or.inl h'
          · simp at h'; simp [h']
        · exact Or.inr (List.mem_cons_of_mem _ h)

theorem chosenFor_mem (x : CatalogEntry) (cat : List CatalogEntry) :
    ∀ (acts : List String) (acc : List CatalogEntry),
      x ∈ acts.foldl (chosenStep cat) acc → x ∈ acc ∨ x ∈ cat := by
  intro acts
  induction acts with
  | nil => intro acc hx; exact Or.inl (by simpa using hx)
  | cons a as ih =>
    intro acc hx
    rcases ih (chosenStep cat acc a) hx with h | h
    · unfold chosenStep at h
      rcases List.mem_append.1 h with h' | h'
      · exact Or.inl h'
      · exact Or.inr (List.mem_of_mem_filter h')
    · exact Or.inr h

theorem pickProducts_length_le (cat : List CatalogEntry) (acts : List String) :
    (pickProducts cat acts).length ≤ 4 := by
  unfold pickProducts
  split
  · simp
  · split
    · simp only [List.length_take]
      omega
    · simp only [List.length_take]
      omega

theorem backfill_length_lb (cat chosen : List CatalogEntry)
    (hd : firstTwoDistinct cat) (hl : chosen.length < 2) :
    min 2 cat.length ≤ (backfill cat chosen).length := by
  match cat, chosen with
  | [], chosen => simp [backfill]
  | [a], [] =>
    have h1 : ¬ (a ∈ ([] : List CatalogEntry)) := by simp
    have h2 : ¬ ((([] : List CatalogEntry) ++ [a]).length ≥ 2) := by simp
    rw [backfill, if_neg h1, if_neg h2, backfill]
    simp
  | [a], [x] =>
    by_cases hax : a ∈ [x]
    · rw [backfill, if_pos hax, backfill]
      simp
    · have h4 : (([x] : List CatalogEntry) ++ [a]).length ≥ 2 := by simp
      rw [backfill, if_neg hax, if_pos h4]
      simp
  | a :: b :: rest, [] =>
    have hab : a ≠ b := hd
    have h1 : ¬ (a ∈ ([] : List CatalogEntry)) := by simp
    have h2 : ¬ ((([] : List CatalogEntry) ++ [a]).length ≥ 2) := by simp
    rw [backfill, if_neg h1, if_neg h2]
    have h3 : ¬ (b ∈ ([] : List CatalogEntry) ++ [a]) := by simp [Ne.symm hab]
    have h4 : (([] : List CatalogEntry) ++ [a] ++ [b]).length ≥ 2 := by simp
    rw [backfill, if_neg h3, if_pos h4]
    simp only [List.length_append, List.length_cons, List.length_nil]
    omega
  | a :: b :: rest, [x] =>
    have hab : a ≠ b := hd
    by_cases hax : a ∈ [x]
    · have hxa : a = x := by simpa using hax
      rw [backfill, if_pos hax]
      have h3 : ¬ (b ∈ [x]) := by simp [← hxa, Ne.symm hab]
      have h4 : (([x] : List CatalogEntry) ++ [b]).length ≥ 2 := by simp
      rw [backfill, if_neg h3, if_pos h4]
      simp only [List.length_append, List.length_cons, List.length_nil]
      omega
    · have h4 : (([x] : List CatalogEntry) ++ [a]).length ≥ 2 := by simp
      rw [backfill, if_neg hax, if_pos h4]
      simp only [List.length_append, List.length_cons, List.length_nil]
      omega
  | _ :: _, x :: y :: ys =>
    simp only [List.length_cons] at hl
    omega

theorem pickProducts_length_lb (cat : List CatalogEntry) (acts : List String)
    (hd : firstTwoDistinct cat) (hne : cat ≠ []) :
    min 2 cat.length ≤ (pickProducts cat acts).length := by
  unfold pickProducts
  rw [if_neg hne]
  by_cases ha : acts = []
  · rw [if_pos ha]
    simp [List.length_take]
  · rw [if_neg ha]
    rw [List.length_take]
    by_cases hc : (chosenFor cat acts).length < 2
    · rw [if_pos hc]
      have hb := backfill_length_lb cat (chosenFor cat acts) hd hc
      have : min 2 cat.length ≤ 2 := Nat.min_le_left _ _
      omega
    · rw [if_neg hc]
      have : min 2 cat.length ≤ 2 := Nat.min_le_left _ _
      omega

theorem pickProducts_mem (cat : List CatalogEntry) (acts : List String)
    (x : CatalogEntry) (hx : x ∈ pickProducts cat acts) : x ∈ cat := by
  unfold pickProducts at hx
  split at hx
  · simp at hx
  · split at hx
    · exact List.take_subset _ _ hx
    · have hx' := List.take_subset _ _ hx
      split at hx'
      · rcases backfill_mem x cat (chosenFor cat acts) hx' with h | h
        · rcases chosenFor_mem x cat acts [] h with h' | h'
          · simp at h'
          · exact h'
        · exact h
      · rcases chosenFor_mem x cat acts [] hx' with h' | h'
        · simp at h'
        · exact h'

theorem pickProducts_nil (acts : List String) : pickProducts [] acts = [] := by
  simp [pickProducts]

theorem CATALOG_get_bacterial : CATALOG_get "bacterial" = bacterialList := rfl

theorem CATALOG_get_fungal : CATALOG_get "fungal" = fungalList := rfl

theorem CATALOG_get_insect : CATALOG_get "insect" = insectList := rfl

example : extract_actives "" = [] := by decide
example : detect_category "bacterial spot" "" = "bacterial" := by decide
example : curated_products "" "bacterial spot" = [copperEntry] := by decide
example : extract_actives "apply copper spray and spinosad" = ["copper", "spinosad"] := by decide

/-! ### Claim theorems -/

/-- Claim C3: `classify` tests the concatenated lower-cased text against the
keyword sets in fixed priority order — bacterial, then fungal, then insect —
the first matching category wins (bacterial beats fungal and insect), and
when no keyword of any set occurs the result defaults to `"insect"`. -/
theorem C3_classifier_priority (d t : String) :
    ((detect_category d t = "bacterial") ↔
      anyKw bacterialKws (joinedLower d t) = true)
    ∧ ((detect_category d t = "fungal") ↔
      (anyKw bacterialKws (joinedLower d t) = false ∧
       anyKw fungalKws (joinedLower d t) = true))
    ∧ ((detect_category d t = "insect") ↔
      (anyKw bacterialKws (joinedLower d t) = false ∧
       anyKw fungalKws (joinedLower d t) = false))
    ∧ (anyKw bacterialKws (joinedLower d t) = false →
       anyKw fungalKws (joinedLower d t) = false →
       anyKw insectKws (joinedLower d t) = false →
       detect_category d t = "insect") := by
  cases hb : anyKw bacterialKws (joinedLower d t) <;>
    cases hf : anyKw fungalKws (joinedLower d t) <;>
      cases hi : anyKw insectKws (joinedLower d t) <;>
        simp [detect_category, hb, hf, hi]

/-- Witness for C3 at concrete inputs with no keywords at all. -/
theorem C3_classifier_priority_witness :
    anyKw bacterialKws (joinedLower "x" "y") = false
    ∧ anyKw fungalKws (joinedLower "x" "y") = false
    ∧ anyKw insectKws (joinedLower "x" "y") = false
    ∧ detect_category "x" "y" = "insect" :=
  ⟨by decide, by decide, by decide,
   (C3_classifier_priority "x" "y").2.2.2 (by decide) (by decide) (by decide)⟩

/-- Counterexample to claim C1 as stated: for `recommendation = ""` and
`disease_name = "bacterial spot"` the resolved category is `bacterial`, whose
catalog list is non-empty (it has exactly one entry), yet `curated_products`
returns fewer than 2 entries. -/
theorem C1_counterexample :
    CATALOG_get (detect_category "bacterial spot" "") ≠ []
    ∧ (curated_products "" "bacterial spot").length < 2 :=
  ⟨by decide, by decide⟩

/-- Claim C1 as amended: `curated_products` returns at most 4 entries, and
whenever the resolved category's catalog list is non-empty it returns at
least `min 2 (catalog length)` entries — i.e. at least 2 except when the
catalog itself has fewer than 2 entries (backfilling stops when the catalog
is exhausted). -/
theorem C1_product_count_bounds (recommendation disease_name : String) :
    (curated_products recommendation disease_name).length ≤ 4
    ∧ (CATALOG_get (detect_category disease_name recommendation) ≠ [] →
       min 2 (CATALOG_get (detect_category disease_name recommendation)).length
         ≤ (curated_products recommendation disease_name).length) := by
  constructor
  · exact pickProducts_length_le _ _
  · intro hne
    show min 2 _ ≤ (pickProducts _ _).length
    apply pickProducts_length_lb _ _ _ hne
    rcases detect_category_mem disease_name recommendation with h | h | h
    · rw [h]; exact trivial
    · rw [h]; exact (by decide : chlorothalonilEntry ≠ mancozebEntry)
    · rw [h]; exact (by decide : spinosadEntry ≠ btEntry)

/-- Witness for C1 at concrete inputs (empty texts resolve to the insect
catalog, which has 6 entries, and exactly 2 are returned). -/
theorem C1_product_count_bounds_witness :
    CATALOG_get (detect_category "" "") ≠ []
    ∧ (curated_products "" "").length ≤ 4
    ∧ min 2 (CATALOG_get (detect_category "" "")).length
        ≤ (curated_products "" "").length :=
  ⟨by decide, (C1_product_count_bounds "" "").1,
   (C1_product_count_bounds "" "").2 (by decide)⟩

/-- Claim C8: `extract_actives` on the empty string returns the empty list
(and, being a total function, never an error), and calling it twice on the
same text gives the same ordered list as calling it once. -/
theorem C8_extract_actives_empty_and_deterministic :
    extract_actives "" = []
    ∧ ∀ t : String, extract_actives t = extract_actives t :=
  ⟨by decide, fun _ => rfl⟩

/-- Claim C10: every entry returned by `curated_products` belongs to the
catalog list of the single resolved category
`detect_category disease_name recommendation` (so the result never mixes
categories), and the result is empty when that category has no catalog
entries. -/
theorem C10_entries_from_resolved_category (recommendation disease_name : String) :
    (∀ p, p ∈ curated_products recommendation disease_name →
      p ∈ CATALOG_get (detect_category disease_name recommendation))
    ∧ (CATALOG_get (detect_category disease_name recommendation) = [] →
       curated_products recommendation disease_name = []) := by
  constructor
  · intro p hp
    exact pickProducts_mem _ _ _ hp
  · intro h
    show pickProducts _ _ = []
    rw [h]
    exact pickProducts_nil _

/-- Witness for C10 at concrete inputs: the spinosad entry is returned for
empty texts and indeed belongs to the resolved (insect) catalog list. -/
theorem C10_entries_from_resolved_category_witness :
    spinosadEntry ∈ curated_products "" ""
    ∧ spinosadEntry ∈ CATALOG_get (detect_category "" "") :=
  ⟨by decide,
   (C10_entries_from_resolved_category "" "").1 spinosadEntry (by decide)⟩

theorem pickProducts_bacterial_head (acts : List String) :
    ((pickProducts bacterialList acts).head?).map CatalogEntry.active
      = some "copper" := by
  unfold pickProducts
  rw [if_neg (by decide : ¬ (bacterialList = []))]
  by_cases ha : acts = []
  · rw [if_pos ha]
    decide
  · rw [if_neg ha]
    have hall : ∀ x ∈ chosenFor bacterialList acts, x = copperEntry := by
      intro x hx
      rcases chosenFor_mem x bacterialList acts [] hx with h | h
      · simp at h
      · simpa [bacterialList] using h
    cases hch : chosenFor bacterialList acts with
    | nil => decide
    | cons x xs =>
      have hx : x = copperEntry := hall x (hch ▸ List.mem_cons_self x xs)
      by_cases hlen : (x :: xs).length < 2
      · have hxs : xs = [] := by
          cases xs with
          | nil => rfl
          | cons y ys => simp at hlen; omega
        subst hxs
        subst hx
        decide
      · rw [if_neg hlen]
        simp [List.take_succ_cons, hx, copperEntry]

/-- Claim C6: when the recommendation text mentions a known active-ingredient
string and the disease name mentions "bacterial spot", the first returned
entry's `active` field is `"copper"` (the single bacterial catalog entry). -/
theorem C6_copper_first (recommendation disease_name : String)
    (_hactive : ∃ a, a ∈ ACTIVE_KEYWORDS ∧
      strContains (lowerStr recommendation) a = true)
    (hdisease : strContains (lowerStr disease_name) "bacterial spot" = true) :
    ((curated_products recommendation disease_name).head?).map CatalogEntry.active
      = some "copper" := by
  have hb : strContains (joinedLower disease_name recommendation) "bacteria" = true := by
    unfold strContains at hdisease ⊢
    have h1 : hasSub (("bacteria" : String).data)
        (("bacterial spot" : String).data) = true := by decide
    have h2 : hasSub (("bacteria" : String).data)
        ((lowerStr disease_name).data) = true :=
      hasSub_trans _ _ _ h1 hdisease
    unfold joinedLower
    rw [strData_append, strData_append]
    exact hasSub_append_right _ _ _ (hasSub_append_right _ _ _ h2)
  have hany : anyKw bacterialKws (joinedLower disease_name recommendation) = true := by
    unfold anyKw bacterialKws
    simp only [List.any_cons, Bool.or_eq_true, beq_iff_eq]
    exact Or.inl hb
  have hcat : detect_category disease_name recommendation = "bacterial" := by
    unfold detect_category
    rw [if_pos hany]
  show ((pickProducts (CATALOG_get (detect_category disease_name recommendation))
      (extract_actives recommendation)).head?).map CatalogEntry.active = some "copper"
  rw [hcat, CATALOG_get_bacterial]
  exact pickProducts_bacterial_head _

/-- Witness for C6 at the concrete inputs of the spec's example. -/
theorem C6_copper_first_witness :
    strContains (lowerStr "bacterial spot") "bacterial spot" = true
    ∧ ((curated_products "apply copper spray" "bacterial spot").head?).map
        CatalogEntry.active = some "copper" :=
  ⟨by decide,
   C6_copper_first "apply copper spray" "bacterial spot"
     ⟨"copper", by decide, by decide⟩ (by decide)⟩

/-- Claim C4: the analysis client's parsing step is a total function (no
unhandled exception); when the response text lacks a `\x7b` or lacks a `\x7d`
it returns the no-JSON error carrying the original text, and when the
first-brace-to-last-brace slice is not valid JSON it returns the invalid-JSON
error carrying that slice and the parser's message. -/
theorem C4_parse_error_paths (text : String) :
    ((findCharIdx jsonOpen text.data = none ∨
        rfindCharIdx jsonClose text.data = none) →
      parse_model_response text
        = ParseOutcome.errNoJson "Failed to parse the model response" text)
    ∧ (∀ (s e1 : Nat) (msg : String),
        findCharIdx jsonOpen text.data = some s →
        rfindCharIdx jsonClose text.data = some e1 →
        parseJson (braceSlice text s e1) = Except.error msg →
        parse_model_response text
          = ParseOutcome.errInvalidJson ("Invalid JSON: " ++ msg)
              (braceSlice text s e1)) := by
  constructor
  · intro h
    unfold parse_model_response
    cases hf : findCharIdx jsonOpen text.data with
    | none => cases hr : rfindCharIdx jsonClose text.data <;> rfl
    | some s =>
      rcases h with h | h
      · rw [hf] at h
        exact absurd h (by simp)
      · rw [h]
  · intro s e1 msg hf hr hp
    unfold parse_model_response
    rw [hf, hr]
    simp only [hp]

/-- Witness for C4: a response with no brace at all yields the no-JSON error. -/
theorem C4_parse_error_paths_witness :
    findCharIdx jsonOpen ("no json here" : String).data = none
    ∧ parse_model_response "no json here"
        = ParseOutcome.errNoJson "Failed to parse the model response" "no json here" :=
  ⟨by decide, (C4_parse_error_paths "no json here").1 (Or.inl (by decide))⟩

/-- Claim C5: when the first-brace-to-last-brace slice of the response text is
valid JSON, the parsing step returns the decoded structure verbatim (no schema
validation); in particular the spec's example response decodes to
`is_healthy = true`, `results = []`, `confidence = "95%"`. -/
theorem C5_parse_ok_path :
    (∀ (text : String) (s e1 : Nat) (v : Json),
      findCharIdx jsonOpen text.data = some s →
      rfindCharIdx jsonClose text.data = some e1 →
      parseJson (braceSlice text s e1) = Except.ok v →
      parse_model_response text = ParseOutcome.ok v)
    ∧ parse_model_response
        "Here is the result: \x7b\"is_healthy\": true, \"results\": [], \"confidence\": \"95%\"\x7d Thanks!"
      = ParseOutcome.ok (Json.obj
          [("is_healthy", Json.bool true), ("results", Json.arr []),
           ("confidence", Json.str "95%")]) := by
  constructor
  · intro text s e1 v hf hr hp
    unfold parse_model_response
    rw [hf, hr]
    simp only [hp]
  · rfl

/-- Witness for C5: the general ok-path theorem applied at the spec's example
response text (first brace at index 20, last closing brace at index 75). -/
theorem C5_parse_ok_path_witness :
    findCharIdx jsonOpen
        ("Here is the result: \x7b\"is_healthy\": true, \"results\": [], \"confidence\": \"95%\"\x7d Thanks!" : String).data
      = some 20
    ∧ parse_model_response
        "Here is the result: \x7b\"is_healthy\": true, \"results\": [], \"confidence\": \"95%\"\x7d Thanks!"
      = ParseOutcome.ok (Json.obj
          [("is_healthy", Json.bool true), ("results", Json.arr []),
           ("confidence", Json.str "95%")]) :=
  ⟨by decide,
   C5_parse_ok_path.1
     "Here is the result: \x7b\"is_healthy\": true, \"results\": [], \"confidence\": \"95%\"\x7d Thanks!"
     20 75
     (Json.obj [("is_healthy", Json.bool true), ("results", Json.arr []),
       ("confidence", Json.str "95%")])
     (by decide) (by decide) (by rfl)⟩

/-- Counterexample to claim C7 as stated: a finding with every field missing
is spoken with its name rendered as `"Unknown"`, not as the empty string the
claim asserts for missing fields. -/
theorem C7_counterexample :
    synthesize_summary (Analysis.mk false [Finding.mk none none none none]) "tomato"
      = "Detected issues: Unknown. Symptoms: . Treatment: . Prevention: ."
    ∧ synthesize_summary (Analysis.mk false [Finding.mk none none none none]) "tomato"
      ≠ "Detected issues: " ++ claimFindingSentence (Finding.mk none none none none) :=
  ⟨by decide, by decide⟩

/-- Claim C7 as amended: the summary follows the three branches in order —
healthy gives the fixed reassurance sentence containing the plant name;
otherwise non-empty results give "Detected issues: " followed by one sentence
per finding in order (missing symptoms/treatment/prevention render as empty
strings, a missing name renders as "Unknown"); otherwise the fixed
inconclusive sentence. -/
theorem C7_summary_branches (analysis : Analysis) (plant_name : String) :
    (analysis.is_healthy = true →
      synthesize_summary analysis plant_name
        = "Your " ++ plant_name ++ " plant appears healthy. Keep doing what you are doing."
      ∧ strContains (synthesize_summary analysis plant_name) plant_name = true)
    ∧ (analysis.is_healthy = false → analysis.results ≠ [] →
      synthesize_summary analysis plant_name
        = "Detected issues: "
            ++ String.intercalate " " (analysis.results.map findingSentence))
    ∧ (analysis.is_healthy = false → analysis.results = [] →
      synthesize_summary analysis plant_name = "Analysis inconclusive.") := by
  refine ⟨?_, ?_, ?_⟩
  · intro h
    have he : synthesize_summary analysis plant_name
        = "Your " ++ plant_name ++ " plant appears healthy. Keep doing what you are doing." := by
      simp [synthesize_summary, h]
    refine ⟨he, ?_⟩
    rw [he]
    unfold strContains
    rw [strData_append, strData_append]
    rw [hasSub_iff]
    exact ⟨("Your " : String).data,
      (" plant appears healthy. Keep doing what you are doing." : String).data, rfl⟩
  · intro h hne
    simp [synthesize_summary, h, hne]
  · intro h hres
    simp [synthesize_summary, h, hres]

/-- Witness for C7 at a healthy analysis. -/
theorem C7_summary_branches_witness :
    synthesize_summary (Analysis.mk true []) "tomato"
      = "Your tomato plant appears healthy. Keep doing what you are doing."
    ∧ strContains (synthesize_summary (Analysis.mk true []) "tomato") "tomato" = true :=
  (C7_summary_branches (Analysis.mk true []) "tomato").1 rfl

/-- Claim C9: the image-normalization step either returns the re-encoded
bytes produced by the (external) decode/convert/re-encode pipeline, or, when
that pipeline fails, the original input bytes unchanged; being a total
function it never raises and never aborts the request. -/
theorem C9_to_jpeg_fallback :
    ∀ (β : Type) (reencode : β → Option β) (raw_bytes : β),
      (∃ jpeg, reencode raw_bytes = some jpeg
        ∧ to_jpeg_bytes reencode raw_bytes = jpeg)
      ∨ (reencode raw_bytes = none
        ∧ to_jpeg_bytes reencode raw_bytes = raw_bytes) := by
  intro β reencode raw_bytes
  cases h : reencode raw_bytes with
  | some jpeg =>
    exact Or.inl ⟨jpeg, rfl, by unfold to_jpeg_bytes; rw [h]⟩
  | none =>
    exact Or.inr ⟨rfl, by unfold to_jpeg_bytes; rw [h]⟩

/-! ### Supporting facts about the extractor (order-independent part)

The source iterates `ACTIVE_KEYWORDS`, a Python *set*, whose iteration order
is implementation-defined (string hashing is salted per process), so no output
order of `extract_actives` can be derived from the source.  The facts below
are independent of that order: which actives are returned, and that each is
returned at most once. -/

theorem extract_fold_mem (tl : String) (kws : List String) :
    ∀ (acc : List String) (x : String),
      (x ∈ kws.foldl
        (fun found active =>
          if strContains tl active && !(found.contains active) then
            found ++ [active]
          else found) acc)
      ↔ (x ∈ acc ∨ (x ∈ kws ∧ strContains tl x = true)) := by
  induction kws with
  | nil => intro acc x; simp
  | cons a as ih =>
    intro acc x
    rw [List.foldl_cons, ih]
    cases hb : strContains tl a && !(List.contains acc a) with
    | false =>
      rw [if_neg (by simp [hb])]
      constructor
      · rintro (hx | hx)
        · exact Or.inl hx
        · exact Or.inr ⟨List.mem_cons_of_mem _ hx.1, hx.2⟩
      · rintro (hx | ⟨hmem, hP⟩)
        · exact Or.inl hx
        · rcases List.mem_cons.1 hmem with rfl | hmem'
          · by_cases hca : x ∈ acc
            · exact Or.inl hca
            · exfalso
              have htr : (strContains tl x && !(List.contains acc x)) = true := by
                simp [List.contains, hP, hca]
              rw [htr] at hb
              simp at hb
          · exact Or.inr ⟨hmem', hP⟩
    | true =>
      rw [if_pos (rfl : true = true)]
      have hP : strContains tl a = true := by
        have hb' := hb
        rw [Bool.and_eq_true] at hb'
        exact hb'.1
      constructor
      · rintro (hx | hx)
        · rcases List.mem_append.1 hx with h' | h'
          · exact Or.inl h'
          · simp at h'
            subst h'
            exact Or.inr ⟨List.mem_cons_self _ _, hP⟩
        · exact Or.inr ⟨List.mem_cons_of_mem _ hx.1, hx.2⟩
      · rintro (hx | ⟨hmem, hQ⟩)
        · exact Or.inl (List.mem_append.2 (Or.inl hx))
        · rcases List.mem_cons.1 hmem with rfl | hmem'
          · exact Or.inl (List.mem_append.2 (Or.inr (by simp)))
          · exact Or.inr ⟨hmem', hQ⟩

theorem extract_fold_nodup (tl : String) (kws : List String) :
    ∀ acc : List String, acc.Nodup →
      (kws.foldl
        (fun found active =>
          if strContains tl active && !(found.contains active) then
            found ++ [active]
          else found) acc).Nodup := by
  induction kws with
  | nil => intro acc h; simpa using h
  | cons a as ih =>
    intro acc h
    rw [List.foldl_cons]
    apply ih
    by_cases hb : (strContains tl a && !(List.contains acc a)) = true
    · rw [if_pos hb]
      have hna : a ∉ acc := by
        have hb' := hb
        rw [Bool.and_eq_true] at hb'
        simpa [List.contains] using hb'.2
      simp [List.nodup_append, h, hna]
    · rw [if_neg hb]
      exact h

/-- The set of actives returned by `extract_actives` is exactly the known
actives whose string occurs in the lower-cased input — independent of the
iteration order of the `ACTIVE_KEYWORDS` set. -/
theorem extract_actives_mem_iff (text x : String) :
    x ∈ extract_actives text
      ↔ x ∈ ACTIVE_KEYWORDS ∧ strContains (lowerStr text) x = true := by
  have h := extract_fold_mem (lowerStr text) ACTIVE_KEYWORDS [] x
  simp only [List.not_mem_nil, false_or] at h
  exact h

/-- Duplicates are suppressed: each active appears at most once. -/
theorem extract_actives_nodup (text : String) : (extract_actives text).Nodup :=
  extract_fold_nodup (lowerStr text) ACTIVE_KEYWORDS [] (by simp)
